import Mathlib

/-!
# Verification of `coerceInputValue` (graphql-js utilities)

Shallow embedding of `src/utilities/coerceInputValue.js`: the recursive
input-coercion engine that walks a runtime value against a GraphQL input
type, producing a coerced value and reporting errors through a caller
supplied `onError` callback (which may abort the whole coercion by
throwing, or return to continue).

JavaScript values are modelled by the inductive `JValue` (with an explicit
`vUndefined` for the absent sentinel), thrown errors by `JSErr`, and the
callback-with-possible-throw protocol by explicit state passing in the
`Except JSErr` monad: the callback receives the accumulated report state
and either returns a new state (continue) or an error (abort/unwind).

External collaborators of the engine (the path tracker, value inspection,
the did-you-mean renderer, and the similarity ranking) are not part of the
source file; they are modelled from the spec where noted, and the opaque
similarity ranking is threaded through as a parameter `suggest`.
-/

set_option maxHeartbeats 1000000

namespace CoerceInput

/-- JavaScript runtime values as seen by the coercion engine.
`vUndefined` is the absent sentinel, distinct from the explicit `vNull`. -/
inductive JValue where
  | vNull
  | vUndefined
  | vBool (b : Bool)
  | vInt (n : Int)
  | vString (s : String)
  | vList (elems : List JValue)
  | vObj (props : List (String × JValue))

/-- A JavaScript error value as thrown/caught by the engine: a message, a
tag telling whether it is a `GraphQLError` (this system's own error kind),
and an optional original error preserved as the cause. -/
inductive JSErr where
  | mk (message : String) (isGraphQLErr : Bool) (original : Option JSErr)

def JSErr.message : JSErr → String
  | .mk m _ _ => m

def JSErr.isGraphQLErr : JSErr → Bool
  | .mk _ g _ => g

def JSErr.original : JSErr → Option JSErr
  | .mk _ _ o => o

/-- `error.message = newMsg` mutation in `defaultOnError`, modelled
functionally: same error with the message replaced. -/
def JSErr.setMessage : JSErr → String → JSErr
  | .mk _ g o, m => .mk m g o

/-- `new GraphQLError(message)`. -/
def GraphQLError (message : String) : JSErr := .mk message true none

/-- `new GraphQLError(message, …, originalError)`: a GraphQLError carrying
the underlying error as its cause. -/
def GraphQLErrorCause (message : String) (cause : JSErr) : JSErr :=
  .mk message true (some cause)

/-- One segment of an access path: an object field name or a list index. -/
inductive PathKey where
  | str (s : String)
  | idx (n : Nat)
deriving DecidableEq

/-- One `onError(path, invalidValue, error)` invocation, recorded. -/
structure Report where
  path : List PathKey
  invalidValue : JValue
  error : JSErr

/-- Modelled from the spec: the Path Tracker's `extend` (section 4.2), an
O(1) persistent extension.  The chain is kept leaf-first. -/
def addPath (p : List PathKey) (k : PathKey) : List PathKey := k :: p

/-- Modelled from the spec: the Path Tracker's `toSequence` (section 4.2),
producing the keys in root-to-leaf order. -/
def pathToArray (p : List PathKey) : List PathKey := p.reverse

mutual
/-- Modelled from the spec: human-readable value inspection (an external
collaborator, "specified only at the boundary"). -/
def inspect : JValue → String
  | .vNull => "null"
  | .vUndefined => "undefined"
  | .vBool b => if b then "true" else "false"
  | .vInt n => toString n
  | .vString s => "\"" ++ s ++ "\""
  | .vList xs => "[" ++ inspectItems xs ++ "]"
  | .vObj kvs => "\x7b " ++ inspectProps kvs ++ " \x7d"

def inspectItems : List JValue → String
  | [] => ""
  | [x] => inspect x
  | x :: rest => inspect x ++ ", " ++ inspectItems rest

def inspectProps : List (String × JValue) → String
  | [] => ""
  | [(k, v)] => k ++ ": " ++ inspect v
  | (k, v) :: rest => k ++ ": " ++ inspect v ++ ", " ++ inspectProps rest
end

mutual
/-- Modelled from the spec: JavaScript `String(value)` coercion, used to
feed a non-string enum input to the suggestion ranking. -/
def jsString : JValue → String
  | .vNull => "null"
  | .vUndefined => "undefined"
  | .vBool b => if b then "true" else "false"
  | .vInt n => toString n
  | .vString s => s
  | .vList xs => jsStringItems xs
  | .vObj _ => "[object Object]"

def jsStringItems : List JValue → String
  | [] => ""
  | [x] => jsString x
  | x :: rest => jsString x ++ "," ++ jsStringItems rest
end

/-- Modelled from the spec: rendering of a path into a dotted/bracketed
locator string (`.field` for names, `[i]` for indices). -/
def printPathArray (path : List PathKey) : String :=
  String.join (path.map fun k =>
    match k with
    | .str s => "." ++ s
    | .idx n => "[" ++ toString n ++ "]")

def orList : List String → String
  | [] => ""
  | [x] => x
  | [x, y] => x ++ " or " ++ y
  | x :: rest => x ++ ", " ++ orList rest

/-- Modelled from the spec: the did-you-mean message renderer, producing
the empty string when no candidate cleared the similarity threshold (that
is, when the suggestion list is empty) and a rendered suggestion phrase
otherwise. -/
def didYouMean (subMessage : Option String) (suggestions : List String) : String :=
  match suggestions with
  | [] => ""
  | _ =>
      let parts := suggestions.map (fun s => "\"" ++ s ++ "\"")
      match subMessage with
      | some m => " Did you mean " ++ m ++ " " ++ orList parts ++ "?"
      | none => " Did you mean " ++ orList parts ++ "?"

mutual
/-- GraphQL input types: the closed five-variant sum of the data model.
A scalar carries its `parseValue` function, which may throw (`Except.error`)
or signal rejection by returning the absent sentinel `vUndefined`. -/
inductive GType where
  | nonNull (ofType : GType)
  | list (ofType : GType)
  | inputObject (name : String) (fields : List GField)
  | scalar (name : String) (parseValue : JValue → Except JSErr JValue)
  | enum (name : String) (values : List (String × JValue))

/-- A declared input-object field: name, type and optional default value
(`none` models an `undefined` `defaultValue`, i.e. no default declared). -/
inductive GField where
  | mk (name : String) (type : GType) (defaultValue : Option JValue)
end

def GField.name : GField → String
  | .mk n _ _ => n

def GField.type : GField → GType
  | .mk _ t _ => t

def GField.defaultValue : GField → Option JValue
  | .mk _ _ d => d

/-- `isNonNullType`. -/
def GType.isNonNull : GType → Bool
  | .nonNull _ => true
  | _ => false

/-- Modelled from the spec: `inspect(type)` / GraphQL type notation, used
only inside error message text. -/
def typeToString : GType → String
  | .nonNull t => typeToString t ++ "!"
  | .list t => "[" ++ typeToString t ++ "]"
  | .inputObject n _ => n
  | .scalar n _ => n
  | .enum n _ => n

/-- JavaScript loose `value == null`: true exactly for null and undefined. -/
def isNullish : JValue → Bool
  | .vNull => true
  | .vUndefined => true
  | _ => false

/-- JavaScript strict `value === undefined`. -/
def isUndef : JValue → Bool
  | .vUndefined => true
  | _ => false

/-- Modelled from the spec: the "keyed-record-like structure" test
(`isObjectLike`), true exactly for keyed records. -/
def isObjectLike : JValue → Bool
  | .vObj _ => true
  | _ => false

/-- Modelled from the spec: the sequence/collection boundary predicate
(`isCollection`), true exactly for sequences. -/
def isCollection : JValue → Bool
  | .vList _ => true
  | _ => false

/-- JavaScript property access `kvs[name]` on a keyed record: the stored
value, or the absent sentinel when the key is missing. -/
def getProp (kvs : List (String × JValue)) (k : String) : JValue :=
  match kvs.lookup k with
  | some v => v
  | none => .vUndefined

/-- The enum branch's guarded lookup: `type.getValue(inputValue)` when the
input is a string, no match otherwise. -/
def enumLookup (values : List (String × JValue)) : JValue → Option JValue
  | .vString s => values.lookup s
  | _ => none

/-- The opaque string-similarity ranking (`suggestionList`), an external
collaborator consumed as a parameter. -/
abbrev SuggestFn := String → List String → List String

/-- The accumulated error-report state threaded through a coercion run. -/
abbrev ErrSt := List Report

/-- The `onError` callback: receives the rendered path, the offending
value and the error, plus the current report state; returns a new state
(continue) or throws (`Except.error`, aborting the whole coercion). -/
abbrev OnErrorCB := List PathKey → JValue → JSErr → ErrSt → Except JSErr ErrSt

/-- The collect-all callback: appends the report and continues. -/
def collectOnError : OnErrorCB := fun path invalidValue error st =>
  .ok (st ++ [⟨path, invalidValue, error⟩])

/-- `defaultOnError`: prepend `Invalid value <rendered> [at "value<path>"]: `
to the error's message and throw it, aborting the coercion. -/
def defaultOnError : OnErrorCB := fun path invalidValue error _ =>
  let errorStart := "Invalid value " ++ inspect invalidValue
  let errorStart :=
    if path.length > 0 then
      errorStart ++ " at \"value" ++ printPathArray path ++ "\""
    else errorStart
  .error (error.setMessage (errorStart ++ ": " ++ error.message))

/-- A suggestion function that never suggests (used to instantiate the
opaque ranking at concrete inputs). -/
def suggestNone : SuggestFn := fun _ _ => []

/-- The second loop of the input-object branch: for every key present in
the input value that does not name a declared field, report
`Field "<k>" is not defined by type "<name>".` with a did-you-mean
suggestion ranked against the declared field names. -/
def unknownKeysLoop (suggest : SuggestFn) (onError : OnErrorCB)
    (keys : List String) (typeName : String) (fieldNames : List String)
    (inputValue : JValue) (path : List PathKey) (st : ErrSt) :
    Except JSErr ErrSt :=
  match keys with
  | [] => .ok st
  | k :: rest =>
      if fieldNames.contains k then
        unknownKeysLoop suggest onError rest typeName fieldNames inputValue path st
      else
        match onError (pathToArray path) inputValue
            (GraphQLError ("Field \"" ++ k ++ "\" is not defined by type \"" ++
              typeName ++ "\"." ++ didYouMean none (suggest k fieldNames))) st with
        | .error e => .error e
        | .ok st1 =>
            unknownKeysLoop suggest onError rest typeName fieldNames inputValue path st1

mutual
/-- `coerceInputValueImpl(inputValue, type, onError, path)`, with the
report state passed explicitly. -/
def coerceInputValueImpl (suggest : SuggestFn) (onError : OnErrorCB)
    (inputValue : JValue) (t : GType) (path : List PathKey) (st : ErrSt) :
    Except JSErr (JValue × ErrSt) :=
  match t with
  | .nonNull ofType =>
      if isNullish inputValue then
        match onError (pathToArray path) inputValue
            (GraphQLError ("Expected non-nullable type \"" ++
              typeToString (.nonNull ofType) ++ "\" not to be null.")) st with
        | .error e => .error e
        | .ok st1 => .ok (.vUndefined, st1)
      else
        coerceInputValueImpl suggest onError inputValue ofType path st
  | .list itemType =>
      if isNullish inputValue then .ok (.vNull, st)
      else
        match inputValue with
        | .vList xs =>
            match coerceListLoop suggest onError itemType xs 0 path st with
            | .error e => .error e
            | .ok (cs, st1) => .ok (.vList cs, st1)
        | _ =>
            match coerceInputValueImpl suggest onError inputValue itemType path st with
            | .error e => .error e
            | .ok (c, st1) => .ok (.vList [c], st1)
  | .inputObject name fields =>
      if isNullish inputValue then .ok (.vNull, st)
      else
        match inputValue with
        | .vObj kvs =>
            match coerceFieldsLoop suggest onError kvs fields path st with
            | .error e => .error e
            | .ok (coerced, st1) =>
                match unknownKeysLoop suggest onError (kvs.map Prod.fst) name
                    (fields.map GField.name) (.vObj kvs) path st1 with
                | .error e => .error e
                | .ok st2 => .ok (.vObj coerced, st2)
        | _ =>
            match onError (pathToArray path) inputValue
                (GraphQLError ("Expected type \"" ++ name ++ "\" to be an object.")) st with
            | .error e => .error e
            | .ok st1 => .ok (.vUndefined, st1)
  | .scalar name parseValue =>
      if isNullish inputValue then .ok (.vNull, st)
      else
        match parseValue inputValue with
        | .error err =>
            if err.isGraphQLErr then
              match onError (pathToArray path) inputValue err st with
              | .error e => .error e
              | .ok st1 => .ok (.vUndefined, st1)
            else
              match onError (pathToArray path) inputValue
                  (GraphQLErrorCause ("Expected type \"" ++ name ++ "\". " ++ err.message) err) st with
              | .error e => .error e
              | .ok st1 => .ok (.vUndefined, st1)
        | .ok parseResult =>
            if isUndef parseResult then
              match onError (pathToArray path) inputValue
                  (GraphQLError ("Expected type \"" ++ name ++ "\".")) st with
              | .error e => .error e
              | .ok st1 => .ok (parseResult, st1)
            else .ok (parseResult, st)
  | .enum name values =>
      if isNullish inputValue then .ok (.vNull, st)
      else
        match enumLookup values inputValue with
        | some payload => .ok (payload, st)
        | none =>
            match onError (pathToArray path) inputValue
                (GraphQLError ("Expected type \"" ++ name ++ "\"." ++
                  didYouMean (some "the enum value")
                    (suggest (jsString inputValue) (values.map Prod.fst)))) st with
            | .error e => .error e
            | .ok st1 => .ok (.vUndefined, st1)
termination_by (2 * sizeOf t, 0)
decreasing_by all_goals (simp_wf; omega)

/-- The `forEach` loop of the list branch: coerce each element at the path
extended by its 0-based index, pushing one result per element. -/
def coerceListLoop (suggest : SuggestFn) (onError : OnErrorCB)
    (itemType : GType) (xs : List JValue) (index : Nat)
    (path : List PathKey) (st : ErrSt) :
    Except JSErr (List JValue × ErrSt) :=
  match xs with
  | [] => .ok ([], st)
  | x :: rest =>
      match coerceInputValueImpl suggest onError x itemType (addPath path (.idx index)) st with
      | .error e => .error e
      | .ok (c, st1) =>
          match coerceListLoop suggest onError itemType rest (index + 1) path st1 with
          | .error e => .error e
          | .ok (cs, st2) => .ok (c :: cs, st2)
termination_by (2 * sizeOf itemType + 1, sizeOf xs)
decreasing_by all_goals (simp_wf; omega)

/-- The first loop of the input-object branch, over the declared fields in
declaration order: substitute defaults, report missing required fields,
omit absent nullable fields, and recurse into present fields at the path
extended by the field name. -/
def coerceFieldsLoop (suggest : SuggestFn) (onError : OnErrorCB)
    (kvs : List (String × JValue)) (fields : List GField)
    (path : List PathKey) (st : ErrSt) :
    Except JSErr (List (String × JValue) × ErrSt) :=
  match fields with
  | [] => .ok ([], st)
  | ⟨fname, ftype, fdefault⟩ :: rest =>
      let fieldValue := getProp kvs fname
      if isUndef fieldValue then
        match fdefault with
        | some d =>
            match coerceFieldsLoop suggest onError kvs rest path st with
            | .error e => .error e
            | .ok (out, st1) => .ok ((fname, d) :: out, st1)
        | none =>
            if ftype.isNonNull then
              match onError (pathToArray path) (.vObj kvs)
                  (GraphQLError ("Field \"" ++ fname ++ "\" of required type \"" ++
                    typeToString ftype ++ "\" was not provided.")) st with
              | .error e => .error e
              | .ok st1 => coerceFieldsLoop suggest onError kvs rest path st1
            else
              coerceFieldsLoop suggest onError kvs rest path st
      else
        match coerceInputValueImpl suggest onError fieldValue ftype
            (addPath path (.str fname)) st with
        | .error e => .error e
        | .ok (c, st1) =>
            match coerceFieldsLoop suggest onError kvs rest path st1 with
            | .error e => .error e
            | .ok (out, st2) => .ok ((fname, c) :: out, st2)
termination_by (2 * sizeOf fields + 1, 0)
decreasing_by all_goals (simp_wf; omega)
end

/-- `coerceInputValue(inputValue, type, onError)`. -/
def coerceInputValue (suggest : SuggestFn) (inputValue : JValue) (t : GType)
    (onError : OnErrorCB) : Except JSErr (JValue × ErrSt) :=
  coerceInputValueImpl suggest onError inputValue t [] []

/-- `coerceInputValue(inputValue, type)` with the defaulted `onError`:
fail-fast semantics. -/
def coerceInputValueDefault (suggest : SuggestFn) (inputValue : JValue)
    (t : GType) : Except JSErr (JValue × ErrSt) :=
  coerceInputValue suggest inputValue t defaultOnError

/-!
## The canonical trace of a coercion

The engine calls `onError` in a sequence that does not depend on the
callback's answers (only abortion cuts it short), and the coerced value
does not depend on the callback at all.  The functions below compute that
canonical outcome — the coerced value together with the ordered list of
reports — purely, and `coerce_eq_replay` proves that running the engine
with any callback is exactly replaying this trace through the callback.
-/

/-- The reports issued by the unknown-key loop, purely. -/
def unknownKeyReports (suggest : SuggestFn) (keys : List String)
    (typeName : String) (fieldNames : List String) (inputValue : JValue)
    (path : List PathKey) : List Report :=
  match keys with
  | [] => []
  | k :: rest =>
      if fieldNames.contains k then
        unknownKeyReports suggest rest typeName fieldNames inputValue path
      else
        ⟨pathToArray path, inputValue,
          GraphQLError ("Field \"" ++ k ++ "\" is not defined by type \"" ++
            typeName ++ "\"." ++ didYouMean none (suggest k fieldNames))⟩ ::
          unknownKeyReports suggest rest typeName fieldNames inputValue path

mutual
/-- The canonical outcome of coercing `inputValue` against `t`: the value
the engine produces together with the ordered trace of reports. -/
def coerceCollect (suggest : SuggestFn) (inputValue : JValue) (t : GType)
    (path : List PathKey) : JValue × List Report :=
  match t with
  | .nonNull ofType =>
      if isNullish inputValue then
        (.vUndefined,
          [⟨pathToArray path, inputValue,
            GraphQLError ("Expected non-nullable type \"" ++
              typeToString (.nonNull ofType) ++ "\" not to be null.")⟩])
      else
        coerceCollect suggest inputValue ofType path
  | .list itemType =>
      if isNullish inputValue then (.vNull, [])
      else
        match inputValue with
        | .vList xs =>
            let out := coerceCollectList suggest itemType xs 0 path
            (.vList out.1, out.2)
        | _ =>
            let out := coerceCollect suggest inputValue itemType path
            (.vList [out.1], out.2)
  | .inputObject name fields =>
      if isNullish inputValue then (.vNull, [])
      else
        match inputValue with
        | .vObj kvs =>
            let out := coerceCollectFields suggest kvs fields path
            (.vObj out.1,
              out.2 ++ unknownKeyReports suggest (kvs.map Prod.fst) name
                (fields.map GField.name) (.vObj kvs) path)
        | _ =>
            (.vUndefined,
              [⟨pathToArray path, inputValue,
                GraphQLError ("Expected type \"" ++ name ++ "\" to be an object.")⟩])
  | .scalar name parseValue =>
      if isNullish inputValue then (.vNull, [])
      else
        match parseValue inputValue with
        | .error err =>
            if err.isGraphQLErr then
              (.vUndefined, [⟨pathToArray path, inputValue, err⟩])
            else
              (.vUndefined,
                [⟨pathToArray path, inputValue,
                  GraphQLErrorCause ("Expected type \"" ++ name ++ "\". " ++ err.message) err⟩])
        | .ok parseResult =>
            if isUndef parseResult then
              (parseResult,
                [⟨pathToArray path, inputValue,
                  GraphQLError ("Expected type \"" ++ name ++ "\".")⟩])
            else (parseResult, [])
  | .enum name values =>
      if isNullish inputValue then (.vNull, [])
      else
        match enumLookup values inputValue with
        | some payload => (payload, [])
        | none =>
            (.vUndefined,
              [⟨pathToArray path, inputValue,
                GraphQLError ("Expected type \"" ++ name ++ "\"." ++
                  didYouMean (some "the enum value")
                    (suggest (jsString inputValue) (values.map Prod.fst)))⟩])
termination_by (2 * sizeOf t, 0)
decreasing_by all_goals (simp_wf; omega)

/-- Canonical outcome of the list-element loop. -/
def coerceCollectList (suggest : SuggestFn) (itemType : GType)
    (xs : List JValue) (index : Nat) (path : List PathKey) :
    List JValue × List Report :=
  match xs with
  | [] => ([], [])
  | x :: rest =>
      let hd := coerceCollect suggest x itemType (addPath path (.idx index))
      let tl := coerceCollectList suggest itemType rest (index + 1) path
      (hd.1 :: tl.1, hd.2 ++ tl.2)
termination_by (2 * sizeOf itemType + 1, sizeOf xs)
decreasing_by all_goals (simp_wf; omega)

/-- Canonical outcome of the declared-field loop. -/
def coerceCollectFields (suggest : SuggestFn) (kvs : List (String × JValue))
    (fields : List GField) (path : List PathKey) :
    List (String × JValue) × List Report :=
  match fields with
  | [] => ([], [])
  | ⟨fname, ftype, fdefault⟩ :: rest =>
      let fieldValue := getProp kvs fname
      if isUndef fieldValue then
        match fdefault with
        | some d =>
            let tl := coerceCollectFields suggest kvs rest path
            ((fname, d) :: tl.1, tl.2)
        | none =>
            if ftype.isNonNull then
              let tl := coerceCollectFields suggest kvs rest path
              (tl.1,
                ⟨pathToArray path, .vObj kvs,
                  GraphQLError ("Field \"" ++ fname ++ "\" of required type \"" ++
                    typeToString ftype ++ "\" was not provided.")⟩ :: tl.2)
            else
              coerceCollectFields suggest kvs rest path
      else
        let hd := coerceCollect suggest fieldValue ftype (addPath path (.str fname))
        let tl := coerceCollectFields suggest kvs rest path
        ((fname, hd.1) :: tl.1, hd.2 ++ tl.2)
termination_by (2 * sizeOf fields + 1, 0)
decreasing_by all_goals (simp_wf; omega)
end

/-- Feed a list of reports one by one to a callback, stopping at the first
throw; `.ok` carries the final report state. -/
def replay (onError : OnErrorCB) (rs : List Report) (st : ErrSt) :
    Except JSErr ErrSt :=
  match rs with
  | [] => .ok st
  | r :: rest =>
      match onError r.path r.invalidValue r.error st with
      | .error e => .error e
      | .ok st1 => replay onError rest st1

/-- Replay a canonical outcome through a callback: value on success,
the callback's throw on abort. -/
def thenReplay {α : Type} (onError : OnErrorCB) (out : α × List Report)
    (st : ErrSt) : Except JSErr (α × ErrSt) :=
  match replay onError out.2 st with
  | .error e => .error e
  | .ok st1 => .ok (out.1, st1)

theorem replay_append (onError : OnErrorCB) (a b : List Report) (st : ErrSt) :
    replay onError (a ++ b) st =
      match replay onError a st with
      | .error e => .error e
      | .ok st1 => replay onError b st1 := by
  induction a generalizing st with
  | nil => simp [replay]
  | cons r rest ih =>
      simp only [List.cons_append, replay]
      cases onError r.path r.invalidValue r.error st with
      | error e => rfl
      | ok st1 => exact ih st1

theorem unknownKeysLoop_eq_replay (suggest : SuggestFn) (onError : OnErrorCB)
    (keys : List String) (typeName : String) (fieldNames : List String)
    (inputValue : JValue) (path : List PathKey) (st : ErrSt) :
    unknownKeysLoop suggest onError keys typeName fieldNames inputValue path st =
      replay onError
        (unknownKeyReports suggest keys typeName fieldNames inputValue path) st := by
  induction keys generalizing st with
  | nil => simp [unknownKeysLoop, unknownKeyReports, replay]
  | cons k rest ih =>
      rw [unknownKeysLoop.eq_def, unknownKeyReports.eq_def]
      by_cases h : fieldNames.contains k
      · simp only [h, if_true]
        exact ih st
      · simp only [h, if_false, Bool.false_eq_true, replay]
        rcases hcb : onError (pathToArray path) inputValue
            (GraphQLError ("Field \"" ++ k ++ "\" is not defined by type \"" ++
              typeName ++ "\"." ++ didYouMean none (suggest k fieldNames))) st with e | st1
        · simp [hcb]
        · simp only [hcb]
          exact ih st1

mutual
/-- Running the engine with any callback is replaying the canonical trace
through that callback; in particular the coerced value is independent of
the callback and of the incoming report state. -/
theorem coerce_eq_replay (suggest : SuggestFn) (onError : OnErrorCB)
    (inputValue : JValue) (t : GType) (path : List PathKey) (st : ErrSt) :
    coerceInputValueImpl suggest onError inputValue t path st =
      thenReplay onError (coerceCollect suggest inputValue t path) st := by
  cases t with
  | nonNull ofType =>
      rw [coerceInputValueImpl.eq_def, coerceCollect.eq_def]
      by_cases h : isNullish inputValue
      · simp only [h, if_true, thenReplay, replay]
        rcases hcb : onError (pathToArray path) inputValue
            (GraphQLError ("Expected non-nullable type \"" ++
              typeToString (.nonNull ofType) ++ "\" not to be null.")) st with e | st1 <;>
          simp [hcb]
      · simp only [h, if_false]
        exact coerce_eq_replay suggest onError inputValue ofType path st
  | list itemType =>
      rw [coerceInputValueImpl.eq_def, coerceCollect.eq_def]
      cases inputValue with
        | vNull => simp [isNullish, thenReplay, replay]
        | vUndefined => simp [isNullish, thenReplay, replay]
        | vList xs =>
            simp only [isNullish, Bool.false_eq_true, if_false]
            rw [coerceList_eq_replay]
            simp only [thenReplay]
            rcases hr : replay onError
                (coerceCollectList suggest itemType xs 0 path).2 st with e | st1 <;>
              simp [hr]
        | vBool b =>
            simp only [isNullish, Bool.false_eq_true, if_false]
            rw [coerce_eq_replay suggest onError (JValue.vBool b) itemType path st]
            simp only [thenReplay]
            rcases hr : replay onError
                (coerceCollect suggest (JValue.vBool b) itemType path).2 st with e | st1 <;>
              simp [hr]
        | vInt n =>
            simp only [isNullish, Bool.false_eq_true, if_false]
            rw [coerce_eq_replay suggest onError (JValue.vInt n) itemType path st]
            simp only [thenReplay]
            rcases hr : replay onError
                (coerceCollect suggest (JValue.vInt n) itemType path).2 st with e | st1 <;>
              simp [hr]
        | vString s =>
            simp only [isNullish, Bool.false_eq_true, if_false]
            rw [coerce_eq_replay suggest onError (JValue.vString s) itemType path st]
            simp only [thenReplay]
            rcases hr : replay onError
                (coerceCollect suggest (JValue.vString s) itemType path).2 st with e | st1 <;>
              simp [hr]
        | vObj kvs =>
            simp only [isNullish, Bool.false_eq_true, if_false]
            rw [coerce_eq_replay suggest onError (JValue.vObj kvs) itemType path st]
            simp only [thenReplay]
            rcases hr : replay onError
                (coerceCollect suggest (JValue.vObj kvs) itemType path).2 st with e | st1 <;>
              simp [hr]
  | inputObject name fields =>
      rw [coerceInputValueImpl.eq_def, coerceCollect.eq_def]
      cases inputValue with
        | vNull => simp [isNullish, thenReplay, replay]
        | vUndefined => simp [isNullish, thenReplay, replay]
        | vObj kvs =>
            simp only [isNullish, Bool.false_eq_true, if_false]
            rw [coerceFields_eq_replay]
            simp only [thenReplay]
            rw [replay_append]
            rcases hf : replay onError
                (coerceCollectFields suggest kvs fields path).2 st with e | st1
            · simp [hf]
            · simp only [hf]
              rw [unknownKeysLoop_eq_replay]
        | vBool b =>
            simp only [isNullish, Bool.false_eq_true, if_false, thenReplay, replay]
            rcases hcb : onError (pathToArray path) (JValue.vBool b)
                (GraphQLError ("Expected type \"" ++ name ++ "\" to be an object.")) st with e | st1 <;>
              simp [hcb]
        | vInt n =>
            simp only [isNullish, Bool.false_eq_true, if_false, thenReplay, replay]
            rcases hcb : onError (pathToArray path) (JValue.vInt n)
                (GraphQLError ("Expected type \"" ++ name ++ "\" to be an object.")) st with e | st1 <;>
              simp [hcb]
        | vString s =>
            simp only [isNullish, Bool.false_eq_true, if_false, thenReplay, replay]
            rcases hcb : onError (pathToArray path) (JValue.vString s)
                (GraphQLError ("Expected type \"" ++ name ++ "\" to be an object.")) st with e | st1 <;>
              simp [hcb]
        | vList xs =>
            simp only [isNullish, Bool.false_eq_true, if_false, thenReplay, replay]
            rcases hcb : onError (pathToArray path) (JValue.vList xs)
                (GraphQLError ("Expected type \"" ++ name ++ "\" to be an object.")) st with e | st1 <;>
              simp [hcb]
  | scalar name parseValue =>
      rw [coerceInputValueImpl.eq_def, coerceCollect.eq_def]
      by_cases h : isNullish inputValue
      · simp [h, thenReplay, replay]
      · simp only [h, if_false]
        rcases hp : parseValue inputValue with err | pr
        · by_cases hg : err.isGraphQLErr
          · simp only [hg, if_true, thenReplay, replay]
            rcases hcb : onError (pathToArray path) inputValue err st with e | st1 <;>
              simp [hcb]
          · simp only [hg, if_false, Bool.false_eq_true, thenReplay, replay]
            rcases hcb : onError (pathToArray path) inputValue
                (GraphQLErrorCause ("Expected type \"" ++ name ++ "\". " ++ err.message) err)
                st with e | st1 <;>
              simp [hcb]
        · by_cases hu : isUndef pr
          · simp only [hu, if_true, thenReplay, replay]
            rcases hcb : onError (pathToArray path) inputValue
                (GraphQLError ("Expected type \"" ++ name ++ "\".")) st with e | st1 <;>
              simp [hcb]
          · simp [hu, thenReplay, replay]
  | enum name values =>
      rw [coerceInputValueImpl.eq_def, coerceCollect.eq_def]
      by_cases h : isNullish inputValue
      · simp [h, thenReplay, replay]
      · simp only [h, if_false]
        rcases he : enumLookup values inputValue with _ | payload
        · simp only [thenReplay, replay]
          rcases hcb : onError (pathToArray path) inputValue
              (GraphQLError ("Expected type \"" ++ name ++ "\"." ++
                didYouMean (some "the enum value")
                  (suggest (jsString inputValue) (values.map Prod.fst)))) st with e | st1 <;>
            simp [hcb]
        · simp [thenReplay, replay]
termination_by (2 * sizeOf t, 0)
decreasing_by all_goals (simp_wf; omega)

theorem coerceList_eq_replay (suggest : SuggestFn) (onError : OnErrorCB)
    (itemType : GType) (xs : List JValue) (index : Nat) (path : List PathKey)
    (st : ErrSt) :
    coerceListLoop suggest onError itemType xs index path st =
      thenReplay onError (coerceCollectList suggest itemType xs index path) st := by
  cases xs with
  | nil => simp [coerceListLoop, coerceCollectList, thenReplay, replay]
  | cons x rest =>
      rw [coerceListLoop.eq_2, coerceCollectList.eq_2]
      rw [coerce_eq_replay]
      simp only [thenReplay]
      rw [replay_append]
      rcases hh : replay onError
          (coerceCollect suggest x itemType (addPath path (.idx index))).2 st with e | st1
      · simp [hh]
      · simp only [hh]
        rw [coerceList_eq_replay]
        simp only [thenReplay]
        rcases ht : replay onError
            (coerceCollectList suggest itemType rest (index + 1) path).2 st1 with e | st2 <;>
          simp [ht]
termination_by (2 * sizeOf itemType + 1, sizeOf xs)
decreasing_by all_goals (simp_wf; omega)

theorem coerceFields_eq_replay (suggest : SuggestFn) (onError : OnErrorCB)
    (kvs : List (String × JValue)) (fields : List GField) (path : List PathKey)
    (st : ErrSt) :
    coerceFieldsLoop suggest onError kvs fields path st =
      thenReplay onError (coerceCollectFields suggest kvs fields path) st := by
  cases fields with
  | nil => simp [coerceFieldsLoop, coerceCollectFields, thenReplay, replay]
  | cons f rest =>
      rcases f with ⟨fname, ftype, fdefault⟩
      rw [coerceFieldsLoop.eq_def, coerceCollectFields.eq_def]
      by_cases h : isUndef (getProp kvs fname)
      · simp only [h, if_true]
        rcases fdefault with _ | d
        · by_cases hnn : ftype.isNonNull
          · simp only [hnn, if_true, thenReplay, replay]
            rcases hcb : onError (pathToArray path) (JValue.vObj kvs)
                (GraphQLError ("Field \"" ++ fname ++ "\" of required type \"" ++
                  typeToString ftype ++ "\" was not provided.")) st with e | st1
            · simp [hcb]
            · simp only [hcb]
              rw [coerceFields_eq_replay]
              simp only [thenReplay]
          · simp only [hnn, if_false, Bool.false_eq_true]
            exact coerceFields_eq_replay suggest onError kvs rest path st
        · rw [coerceFields_eq_replay]
          simp only [thenReplay]
          rcases ht : replay onError
              (coerceCollectFields suggest kvs rest path).2 st with e | st2 <;>
            simp [ht]
      · simp only [h, if_false, Bool.false_eq_true]
        rw [coerce_eq_replay]
        simp only [thenReplay]
        rw [replay_append]
        rcases hh : replay onError
            (coerceCollect suggest (getProp kvs fname) ftype
              (addPath path (.str fname))).2 st with e | st1
        · simp [hh]
        · simp only [hh]
          rw [coerceFields_eq_replay]
          simp only [thenReplay]
          rcases ht : replay onError
              (coerceCollectFields suggest kvs rest path).2 st1 with e | st2 <;>
            simp [ht]
termination_by (2 * sizeOf fields + 1, 0)
decreasing_by all_goals (simp_wf; omega)
end

theorem replay_collect (rs : List Report) (st : ErrSt) :
    replay collectOnError rs st = .ok (st ++ rs) := by
  induction rs generalizing st with
  | nil => simp [replay]
  | cons r rest ih =>
      simp [replay, collectOnError, ih]

/-- Running the engine with the collect-all callback never throws, leaves
the incoming reports in place, and appends exactly the canonical trace. -/
theorem coerce_collect_run (suggest : SuggestFn) (inputValue : JValue)
    (t : GType) (path : List PathKey) (st : ErrSt) :
    coerceInputValueImpl suggest collectOnError inputValue t path st =
      .ok ((coerceCollect suggest inputValue t path).1,
           st ++ (coerceCollect suggest inputValue t path).2) := by
  rw [coerce_eq_replay]
  simp [thenReplay, replay_collect]

/-- The error raised by the default fail-fast policy for a given report:
the original error with `Invalid value <rendered>` and, when the path is
non-empty, ` at "value<locator>"`, prepended to its message. -/
def renderDefaultErr (r : Report) : JSErr :=
  let errorStart := "Invalid value " ++ inspect r.invalidValue
  let errorStart :=
    if r.path.length > 0 then
      errorStart ++ " at \"value" ++ printPathArray r.path ++ "\""
    else errorStart
  r.error.setMessage (errorStart ++ ": " ++ r.error.message)

theorem defaultOnError_throws (p : List PathKey) (v : JValue) (e : JSErr)
    (st : ErrSt) : defaultOnError p v e st = .error (renderDefaultErr ⟨p, v, e⟩) := by
  simp [defaultOnError, renderDefaultErr]

theorem replay_default (rs : List Report) (st : ErrSt) :
    replay defaultOnError rs st =
      match rs with
      | [] => .ok st
      | r :: _ => .error (renderDefaultErr r) := by
  cases rs with
  | nil => simp [replay]
  | cons r rest => simp [replay, defaultOnError_throws]

/-- The default policy raises the transformed first canonical report, or
returns the canonical value when the trace is empty. -/
theorem coerce_default_run (suggest : SuggestFn) (inputValue : JValue)
    (t : GType) (path : List PathKey) (st : ErrSt) :
    coerceInputValueImpl suggest defaultOnError inputValue t path st =
      (match (coerceCollect suggest inputValue t path).2 with
       | [] => .ok ((coerceCollect suggest inputValue t path).1, st)
       | r :: _ => .error (renderDefaultErr r)) := by
  rw [coerce_eq_replay]
  simp only [thenReplay, replay_default]
  rcases h : (coerceCollect suggest inputValue t path).2 with _ | ⟨r, rest⟩ <;> simp

/-!
## Claim theorems
-/

/-- C2: coercing null or absent against `NonNull(T)` invokes `onError`
exactly once — with the non-null-violation error, the current path and the
offending value — and returns absent; coercing any other value against
`NonNull(T)` equals coercing it against `T` at the same, unextended path. -/
theorem claim_c2_nonNull (suggest : SuggestFn) (onError : OnErrorCB)
    (t : GType) (path : List PathKey) (st : ErrSt) :
    (∀ v, isNullish v = true →
      coerceInputValueImpl suggest onError v (.nonNull t) path st =
        (match onError (pathToArray path) v
            (GraphQLError ("Expected non-nullable type \"" ++
              typeToString (.nonNull t) ++ "\" not to be null.")) st with
         | .error e => .error e
         | .ok st1 => .ok (.vUndefined, st1))) ∧
    (∀ v, isNullish v = false →
      coerceInputValueImpl suggest onError v (.nonNull t) path st =
        coerceInputValueImpl suggest onError v t path st) := by
  constructor
  · intro v hv
    rw [coerceInputValueImpl.eq_def]
    simp [hv]
  · intro v hv
    rw [coerceInputValueImpl.eq_def]
    simp [hv]

theorem claim_c2_nonNull_witness :
    coerceInputValueImpl suggestNone collectOnError JValue.vNull
        (.nonNull (.enum "E" [])) [] [] =
      (match collectOnError (pathToArray []) JValue.vNull
          (GraphQLError ("Expected non-nullable type \"" ++
            typeToString (.nonNull (.enum "E" [])) ++ "\" not to be null.")) [] with
       | .error e => .error e
       | .ok st1 => .ok (.vUndefined, st1)) :=
  (claim_c2_nonNull suggestNone collectOnError (.enum "E" []) [] []).1
    JValue.vNull (by rfl)

/-- C7: for every type that is not `NonNull`, coercing null or absent
returns the canonical explicit null, with no `onError` invocation and the
report state untouched — whatever the callback is. -/
theorem claim_c7_nullPass (suggest : SuggestFn) (onError : OnErrorCB)
    (t : GType) (v : JValue) (path : List PathKey) (st : ErrSt)
    (hnn : t.isNonNull = false) (hv : isNullish v = true) :
    coerceInputValueImpl suggest onError v t path st = .ok (.vNull, st) := by
  cases t with
  | nonNull ofType => simp [GType.isNonNull] at hnn
  | list itemType => rw [coerceInputValueImpl.eq_def]; simp [hv]
  | inputObject name fields => rw [coerceInputValueImpl.eq_def]; simp [hv]
  | scalar name parseValue => rw [coerceInputValueImpl.eq_def]; simp [hv]
  | enum name values => rw [coerceInputValueImpl.eq_def]; simp [hv]

theorem claim_c7_nullPass_witness :
    GType.isNonNull (.enum "E" []) = false ∧ isNullish JValue.vUndefined = true ∧
    coerceInputValueImpl suggestNone defaultOnError JValue.vUndefined
        (.enum "E" []) [] [] = .ok (.vNull, []) :=
  ⟨rfl, rfl,
    claim_c7_nullPass suggestNone defaultOnError (.enum "E" []) JValue.vUndefined
      [] [] rfl rfl⟩

/-- C4: scalar coercion calls `parseValue`; a thrown `GraphQLError` is
forwarded to `onError` unchanged, any other thrown error is wrapped into
`Expected type <name>. <message>` carrying the original as its cause, the
absent sentinel result is reported as `Expected type <name>`, and any other
parse result — null included — is returned as-is with no error. -/
theorem claim_c4_scalar (suggest : SuggestFn) (onError : OnErrorCB)
    (name : String) (parseValue : JValue → Except JSErr JValue) (v : JValue)
    (path : List PathKey) (st : ErrSt) (hv : isNullish v = false) :
    (∀ e, parseValue v = .error e → e.isGraphQLErr = true →
      coerceInputValueImpl suggest onError v (.scalar name parseValue) path st =
        (match onError (pathToArray path) v e st with
         | .error e2 => .error e2
         | .ok st1 => .ok (.vUndefined, st1))) ∧
    (∀ e, parseValue v = .error e → e.isGraphQLErr = false →
      coerceInputValueImpl suggest onError v (.scalar name parseValue) path st =
        (match onError (pathToArray path) v
            (GraphQLErrorCause ("Expected type \"" ++ name ++ "\". " ++ e.message) e) st with
         | .error e2 => .error e2
         | .ok st1 => .ok (.vUndefined, st1))) ∧
    (parseValue v = .ok .vUndefined →
      coerceInputValueImpl suggest onError v (.scalar name parseValue) path st =
        (match onError (pathToArray path) v
            (GraphQLError ("Expected type \"" ++ name ++ "\".")) st with
         | .error e2 => .error e2
         | .ok st1 => .ok (.vUndefined, st1))) ∧
    (∀ w, parseValue v = .ok w → isUndef w = false →
      coerceInputValueImpl suggest onError v (.scalar name parseValue) path st =
        .ok (w, st)) ∧
    (parseValue v = .ok .vNull →
      coerceInputValueImpl suggest onError v (.scalar name parseValue) path st =
        .ok (.vNull, st)) := by
  refine ⟨?_, ?_, ?_, ?_, ?_⟩
  · intro e hp hg
    rw [coerceInputValueImpl.eq_def]
    simp [hv, hp, hg]
  · intro e hp hg
    rw [coerceInputValueImpl.eq_def]
    simp [hv, hp, hg]
  · intro hp
    rw [coerceInputValueImpl.eq_def]
    simp [hv, hp, isUndef]
  · intro w hp hw
    rw [coerceInputValueImpl.eq_def]
    simp [hv, hp, hw]
  · intro hp
    rw [coerceInputValueImpl.eq_def]
    simp [hv, hp, isUndef]

/-- A sample scalar parse used to instantiate claims at concrete inputs:
it accepts every value unchanged. -/
def idParse : JValue → Except JSErr JValue := fun v => .ok v

theorem claim_c4_scalar_witness :
    isNullish (JValue.vInt 5) = false ∧ idParse (JValue.vInt 5) = .ok (JValue.vInt 5) ∧
    coerceInputValueImpl suggestNone collectOnError (JValue.vInt 5)
        (.scalar "Int" idParse) [] [] = .ok (JValue.vInt 5, []) :=
  ⟨rfl, rfl,
    (claim_c4_scalar suggestNone collectOnError "Int" idParse (JValue.vInt 5)
        [] [] rfl).2.2.2.1 (JValue.vInt 5) rfl rfl⟩

/-- C8: enum coercion returns the declared payload on an exact string name
match, and otherwise — non-string input included — reports exactly one
`Expected type <name>` error carrying a did-you-mean suggestion ranked
against all declared value names, returning absent. -/
theorem claim_c8_enum (suggest : SuggestFn) (onError : OnErrorCB)
    (name : String) (values : List (String × JValue)) (v : JValue)
    (path : List PathKey) (st : ErrSt) (hv : isNullish v = false) :
    (∀ s payload, v = .vString s → values.lookup s = some payload →
      coerceInputValueImpl suggest onError v (.enum name values) path st =
        .ok (payload, st)) ∧
    ((∀ s, v ≠ .vString s) → enumLookup values v = none) ∧
    (enumLookup values v = none →
      coerceInputValueImpl suggest onError v (.enum name values) path st =
        (match onError (pathToArray path) v
            (GraphQLError ("Expected type \"" ++ name ++ "\"." ++
              didYouMean (some "the enum value")
                (suggest (jsString v) (values.map Prod.fst)))) st with
         | .error e => .error e
         | .ok st1 => .ok (.vUndefined, st1))) := by
  refine ⟨?_, ?_, ?_⟩
  · intro s payload hs hl
    subst hs
    rw [coerceInputValueImpl.eq_def]
    simp [hv, enumLookup, hl]
  · intro hns
    cases v with
    | vString s => exact absurd rfl (hns s)
    | vNull => rfl
    | vUndefined => rfl
    | vBool b => rfl
    | vInt n => rfl
    | vList xs => rfl
    | vObj kvs => rfl
  · intro hl
    rw [coerceInputValueImpl.eq_def]
    simp [hv, hl]

theorem claim_c8_enum_witness :
    isNullish (JValue.vString "RED") = false ∧
    List.lookup "RED" [("RED", JValue.vInt 0)] = some (JValue.vInt 0) ∧
    coerceInputValueImpl suggestNone collectOnError (JValue.vString "RED")
        (.enum "Color" [("RED", JValue.vInt 0)]) [] [] = .ok (JValue.vInt 0, []) :=
  ⟨rfl, rfl,
    (claim_c8_enum suggestNone collectOnError "Color" [("RED", JValue.vInt 0)]
        (JValue.vString "RED") [] [] rfl).1 "RED" (JValue.vInt 0) rfl rfl⟩

/-- C10: an input-object field declared with a default and absent from the
input contributes the default verbatim — for every default value and every
field type, including ones the default could never coerce against — with
zero `onError` invocations, whatever the callback. -/
theorem claim_c10_defaultVerbatim (suggest : SuggestFn) (onError : OnErrorCB)
    (name fname : String) (ftype : GType) (d : JValue)
    (path : List PathKey) (st : ErrSt) :
    coerceInputValueImpl suggest onError (.vObj [])
        (.inputObject name [.mk fname ftype (some d)]) path st =
      .ok (.vObj [(fname, d)], st) := by
  rw [coerceInputValueImpl.eq_def]
  simp only [isNullish, Bool.false_eq_true, if_false]
  rw [coerceFieldsLoop.eq_def]
  simp [getProp, isUndef, coerceFieldsLoop, unknownKeysLoop]

/-- The canonical list-loop outcome, element by element: one value per
input element, coerced at the path extended by its 0-based index, with the
element traces concatenated in order. -/
theorem coerceCollectList_enum (suggest : SuggestFn) (itemType : GType) :
    ∀ (xs : List JValue) (index : Nat) (path : List PathKey),
      coerceCollectList suggest itemType xs index path =
        ((List.enumFrom index xs).map fun p =>
            (coerceCollect suggest p.2 itemType (addPath path (.idx p.1))).1,
         (List.enumFrom index xs).flatMap fun p =>
            (coerceCollect suggest p.2 itemType (addPath path (.idx p.1))).2) := by
  intro xs
  induction xs with
  | nil => intro index path; simp [coerceCollectList, List.enumFrom]
  | cons x rest ih =>
      intro index path
      rw [coerceCollectList.eq_2]
      simp [List.enumFrom, ih]

/-- C3: coercing a sequence against `List(item)` yields one entry per
element in order, each the recursive coercion of that element at the path
extended by its index (failed elements leaving absent holes in place), and
coercing a non-sequence yields a one-element sequence wrapping the
recursive coercion of the whole value at the unextended path. -/
theorem claim_c3_list (suggest : SuggestFn) (itemType : GType)
    (path : List PathKey) (st : ErrSt) :
    (∀ xs, coerceInputValueImpl suggest collectOnError (.vList xs)
        (.list itemType) path st =
      .ok (.vList ((List.enumFrom 0 xs).map fun p =>
            (coerceCollect suggest p.2 itemType (addPath path (.idx p.1))).1),
        st ++ (List.enumFrom 0 xs).flatMap fun p =>
            (coerceCollect suggest p.2 itemType (addPath path (.idx p.1))).2)) ∧
    (∀ v, isNullish v = false → isCollection v = false →
      coerceInputValueImpl suggest collectOnError v (.list itemType) path st =
        .ok (.vList [(coerceCollect suggest v itemType path).1],
          st ++ (coerceCollect suggest v itemType path).2)) := by
  constructor
  · intro xs
    rw [coerce_collect_run, coerceCollect.eq_def]
    simp [isNullish, coerceCollectList_enum]
  · intro v hv hc
    rw [coerce_collect_run, coerceCollect.eq_def]
    cases v with
    | vNull => simp [isNullish] at hv
    | vUndefined => simp [isNullish] at hv
    | vList xs => simp [isCollection] at hc
    | vBool b => simp [isNullish]
    | vInt n => simp [isNullish]
    | vString s => simp [isNullish]
    | vObj kvs => simp [isNullish]

/-- The per-field policy exactly as the spec's input-object clause states
it (claim-side rendering, to be compared with the engine): an absent field
with a default contributes the default; an absent `NonNull` field without
a default contributes no entry and one required-field report; an absent
nullable field without a default contributes nothing; a present field is
coerced recursively at the path extended by the field name and its entry
is written even when the recursion came back absent. -/
def fieldOutcomeSpec (suggest : SuggestFn) (kvs : List (String × JValue))
    (path : List PathKey) (f : GField) :
    Option (String × JValue) × List Report :=
  if isUndef (getProp kvs f.name) then
    match f.defaultValue with
    | some d => (some (f.name, d), [])
    | none =>
        if f.type.isNonNull then
          (none,
            [⟨pathToArray path, .vObj kvs,
              GraphQLError ("Field \"" ++ f.name ++ "\" of required type \"" ++
                typeToString f.type ++ "\" was not provided.")⟩])
        else (none, [])
  else
    (some (f.name,
        (coerceCollect suggest (getProp kvs f.name) f.type (addPath path (.str f.name))).1),
      (coerceCollect suggest (getProp kvs f.name) f.type (addPath path (.str f.name))).2)

/-- The engine's declared-field loop agrees with the spec-side per-field
policy, field by field in declaration order. -/
theorem coerceCollectFields_spec (suggest : SuggestFn)
    (kvs : List (String × JValue)) (path : List PathKey) :
    ∀ fields : List GField,
      coerceCollectFields suggest kvs fields path =
        (fields.filterMap fun f => (fieldOutcomeSpec suggest kvs path f).1,
         fields.flatMap fun f => (fieldOutcomeSpec suggest kvs path f).2) := by
  intro fields
  induction fields with
  | nil => simp [coerceCollectFields]
  | cons f rest ih =>
      rcases f with ⟨fname, ftype, fdefault⟩
      rw [coerceCollectFields.eq_def]
      by_cases h : isUndef (getProp kvs fname)
      · simp only [h, if_true]
        rcases fdefault with _ | d
        · by_cases hnn : ftype.isNonNull
          · simp [hnn, ih, fieldOutcomeSpec, h, GField.name, GField.type, GField.defaultValue]
          · simp [hnn, ih, fieldOutcomeSpec, h, GField.name, GField.type, GField.defaultValue]
        · simp [ih, fieldOutcomeSpec, h, GField.name, GField.defaultValue]
      · simp [h, ih, fieldOutcomeSpec, GField.name, GField.type, GField.defaultValue]

/-- The unknown-key reports are exactly one report per undeclared input
key, in the input value's own key order, each carrying the suggestion
list ranked against the full set of declared field names. -/
theorem unknownKeyReports_filter (suggest : SuggestFn) (typeName : String)
    (fieldNames : List String) (inputValue : JValue) (path : List PathKey) :
    ∀ keys : List String,
      unknownKeyReports suggest keys typeName fieldNames inputValue path =
        (keys.filter fun k => !(fieldNames.contains k)).map fun k =>
          ⟨pathToArray path, inputValue,
            GraphQLError ("Field \"" ++ k ++ "\" is not defined by type \"" ++
              typeName ++ "\"." ++ didYouMean none (suggest k fieldNames))⟩ := by
  intro keys
  induction keys with
  | nil => simp [unknownKeyReports]
  | cons k rest ih =>
      rw [unknownKeyReports.eq_def]
      by_cases h : k ∈ fieldNames
      · simp [h, ih, List.filter_cons]
      · simp [h, ih, List.filter_cons]

/-- Every key of the coerced field output names a declared field. -/
theorem coerceCollectFields_keys (suggest : SuggestFn)
    (kvs : List (String × JValue)) (path : List PathKey) :
    ∀ (fields : List GField) (p : String × JValue),
      p ∈ (coerceCollectFields suggest kvs fields path).1 →
        p.1 ∈ fields.map GField.name := by
  intro fields
  induction fields with
  | nil => intro p hp; simp [coerceCollectFields] at hp
  | cons f rest ih =>
      intro p hp
      rcases f with ⟨fname, ftype, fdefault⟩
      rw [coerceCollectFields.eq_def] at hp
      by_cases h : isUndef (getProp kvs fname)
      · simp only [h, if_true] at hp
        rcases fdefault with _ | d
        · by_cases hnn : ftype.isNonNull
          · simp only [hnn, if_true] at hp
            simpa [GField.name] using Or.inr (ih p hp)
          · simp only [hnn, if_false, Bool.false_eq_true] at hp
            simpa [GField.name] using Or.inr (ih p hp)
        · simp only [List.mem_cons] at hp
          rcases hp with hp | hp
          · subst hp; simp [GField.name]
          · simpa [GField.name] using Or.inr (ih p hp)
      · simp only [h, if_false, Bool.false_eq_true, List.mem_cons] at hp
        rcases hp with hp | hp
        · subst hp; simp [GField.name]
        · simpa [GField.name] using Or.inr (ih p hp)

/-- C1 as stated is false at a null input: null is not a keyed record,
yet coercing it against a (nullable) input-object type reports nothing and
returns canonical null rather than absent. -/
theorem claim_c1_counterexample :
    isObjectLike JValue.vNull = false ∧
    coerceInputValueImpl suggestNone collectOnError JValue.vNull
        (.inputObject "T" []) [] [] = .ok (.vNull, []) ∧
    JValue.vNull ≠ JValue.vUndefined := by
  refine ⟨rfl, ?_, fun h => JValue.noConfusion h⟩
  rw [coerceInputValueImpl.eq_def]
  simp [isNullish]

/-- C1 (amended to non-null, non-absent inputs): coercing such a value
against an input-object type reports exactly one object-shape error and
returns absent when the value is not a keyed record; otherwise the result
is the declared-field fold of the spec's per-field policy (defaults
substituted, required-absent fields reported and omitted, absent nullable
fields omitted, present fields written even when their coercion came back
absent), followed by the unknown-key reports. -/
theorem claim_c1_inputObject (suggest : SuggestFn) (name : String)
    (fields : List GField) (path : List PathKey) (st : ErrSt) :
    (∀ v, isNullish v = false → isObjectLike v = false →
      coerceInputValueImpl suggest collectOnError v (.inputObject name fields) path st =
        .ok (.vUndefined,
          st ++ [⟨pathToArray path, v,
            GraphQLError ("Expected type \"" ++ name ++ "\" to be an object.")⟩])) ∧
    (∀ kvs, coerceInputValueImpl suggest collectOnError (.vObj kvs)
        (.inputObject name fields) path st =
      .ok (.vObj (fields.filterMap fun f => (fieldOutcomeSpec suggest kvs path f).1),
        st ++ (fields.flatMap fun f => (fieldOutcomeSpec suggest kvs path f).2)
           ++ unknownKeyReports suggest (kvs.map Prod.fst) name
                (fields.map GField.name) (.vObj kvs) path)) := by
  constructor
  · intro v hv ho
    rw [coerce_collect_run, coerceCollect.eq_def]
    cases v with
    | vNull => simp [isNullish] at hv
    | vUndefined => simp [isNullish] at hv
    | vObj kvs => simp [isObjectLike] at ho
    | vBool b => simp [isNullish]
    | vInt n => simp [isNullish]
    | vString s => simp [isNullish]
    | vList xs => simp [isNullish]
  · intro kvs
    rw [coerce_collect_run, coerceCollect.eq_def]
    simp [isNullish, coerceCollectFields_spec]

theorem claim_c1_inputObject_witness :
    isNullish (JValue.vInt 3) = false ∧ isObjectLike (JValue.vInt 3) = false ∧
    coerceInputValueImpl suggestNone collectOnError (JValue.vInt 3)
        (.inputObject "T" []) [] [] =
      .ok (.vUndefined,
        [] ++ [⟨pathToArray [], JValue.vInt 3,
          GraphQLError ("Expected type \"" ++ "T" ++ "\" to be an object.")⟩]) :=
  ⟨rfl, rfl,
    (claim_c1_inputObject suggestNone "T" [] [] []).1 (JValue.vInt 3) rfl rfl⟩

/-- C5: every undeclared input key produces exactly one unknown-field
error carrying the suggestion list ranked against the full set of declared
field names; unknown keys are never copied into the result; and all
unknown-field errors come after every field-related report of the same
object, in the input value's own key order. -/
theorem claim_c5_unknownKeys (suggest : SuggestFn) (name : String)
    (fields : List GField) (kvs : List (String × JValue))
    (path : List PathKey) (st : ErrSt) :
    ∃ (out : List (String × JValue)) (fieldReports : List Report),
      coerceInputValueImpl suggest collectOnError (.vObj kvs)
          (.inputObject name fields) path st =
        .ok (.vObj out,
          st ++ fieldReports ++
            ((kvs.map Prod.fst).filter fun k =>
                !((fields.map GField.name).contains k)).map (fun k =>
              ⟨pathToArray path, .vObj kvs,
                GraphQLError ("Field \"" ++ k ++ "\" is not defined by type \"" ++
                  name ++ "\"." ++
                  didYouMean none (suggest k (fields.map GField.name)))⟩)) ∧
      ∀ p ∈ out, p.1 ∈ fields.map GField.name := by
  refine ⟨(coerceCollectFields suggest kvs fields path).1,
    (coerceCollectFields suggest kvs fields path).2, ?_, ?_⟩
  · rw [coerce_collect_run, coerceCollect.eq_def]
    simp [isNullish, unknownKeyReports_filter, List.append_assoc]
  · intro p hp
    exact coerceCollectFields_keys suggest kvs path fields p hp

theorem claim_c3_list_witness :
    isNullish (JValue.vInt 7) = false ∧ isCollection (JValue.vInt 7) = false ∧
    coerceInputValueImpl suggestNone collectOnError (JValue.vInt 7)
        (.list (.scalar "Int" idParse)) [] [] =
      .ok (.vList [(coerceCollect suggestNone (JValue.vInt 7)
            (.scalar "Int" idParse) []).1],
        [] ++ (coerceCollect suggestNone (JValue.vInt 7)
            (.scalar "Int" idParse) []).2) :=
  ⟨rfl, rfl,
    (claim_c3_list suggestNone (.scalar "Int" idParse) [] []).2
      (JValue.vInt 7) rfl rfl⟩

/-- C6: with no callback supplied, the first error discovered in the
canonical depth-first order is raised — aborting the whole coercion, so no
later error is ever reported — and its message is the original message
with `Invalid value <rendered>` prepended, the ` at "value<locator>"`
segment appearing only when the error's path is non-empty. -/
theorem claim_c6_failFast (suggest : SuggestFn) (v : JValue) (t : GType) :
    (coerceInputValueDefault suggest v t =
      (match (coerceCollect suggest v t []).2 with
       | [] => .ok ((coerceCollect suggest v t []).1, [])
       | r :: _ => .error (renderDefaultErr r))) ∧
    (∀ r rest, (coerceCollect suggest v t []).2 = r :: rest →
      coerceInputValueDefault suggest v t =
        .error (r.error.setMessage
          ((if r.path.length > 0 then
              ("Invalid value " ++ inspect r.invalidValue) ++ " at \"value" ++
                printPathArray r.path ++ "\""
            else "Invalid value " ++ inspect r.invalidValue) ++ ": " ++
            r.error.message))) := by
  constructor
  · rw [coerceInputValueDefault, coerceInputValue, coerce_default_run]
  · intro r rest h
    rw [coerceInputValueDefault, coerceInputValue, coerce_default_run, h]
    simp [renderDefaultErr]

theorem claim_c6_failFast_witness :
    (coerceCollect suggestNone JValue.vNull (.nonNull (.enum "E" [])) []).2 =
      [⟨pathToArray [], JValue.vNull,
        GraphQLError ("Expected non-nullable type \"" ++
          typeToString (.nonNull (.enum "E" [])) ++ "\" not to be null.")⟩] ∧
    coerceInputValueDefault suggestNone JValue.vNull (.nonNull (.enum "E" [])) =
      .error ((GraphQLError ("Expected non-nullable type \"" ++
          typeToString (.nonNull (.enum "E" [])) ++ "\" not to be null.")).setMessage
        ((if (pathToArray ([] : List PathKey)).length > 0 then
            ("Invalid value " ++ inspect JValue.vNull) ++ " at \"value" ++
              printPathArray (pathToArray []) ++ "\""
          else "Invalid value " ++ inspect JValue.vNull) ++ ": " ++
          (GraphQLError ("Expected non-nullable type \"" ++
            typeToString (.nonNull (.enum "E" [])) ++ "\" not to be null.")).message)) := by
  have h : (coerceCollect suggestNone JValue.vNull (.nonNull (.enum "E" [])) []).2 =
      [⟨pathToArray [], JValue.vNull,
        GraphQLError ("Expected non-nullable type \"" ++
          typeToString (.nonNull (.enum "E" [])) ++ "\" not to be null.")⟩] := by
    rw [coerceCollect.eq_def]
    simp [isNullish]
  exact ⟨h,
    (claim_c6_failFast suggestNone JValue.vNull (.nonNull (.enum "E" []))).2 _ [] h⟩

/-- The round-trip condition C9 assumes of a scalar parse function, read
over the tri-state result: a successful non-absent parse result parses to
itself again, and is never the null value. -/
def ParseIdem (p : JValue → Except JSErr JValue) : Prop :=
  ∀ x y, p x = .ok y → isUndef y = false → p y = .ok y ∧ y ≠ .vNull

mutual
/-- The class of types on which re-coercion is idempotent: no enum leaves,
input objects with distinct field names and no defaults, and scalar leaves
whose parses satisfy `ParseIdem`. -/
def goodType : GType → Prop
  | .nonNull t => goodType t
  | .list t => goodType t
  | .inputObject _ fields => (fields.map GField.name).Nodup ∧ goodFields fields
  | .scalar _ p => ParseIdem p
  | .enum _ _ => False

def goodFields : List GField → Prop
  | [] => True
  | ⟨_, ftype, fdefault⟩ :: rest => fdefault = none ∧ goodType ftype ∧ goodFields rest
end

theorem getProp_not_mem (k : String) :
    ∀ kvs : List (String × JValue), k ∉ kvs.map Prod.fst →
      getProp kvs k = .vUndefined := by
  intro kvs
  induction kvs with
  | nil => intro h; rfl
  | cons p rest ih =>
      intro h
      rcases p with ⟨a, b⟩
      simp only [List.map_cons, List.mem_cons, not_or] at h
      have hne : (k == a) = false := beq_eq_false_iff_ne.mpr h.1
      simp only [getProp, List.lookup, hne]
      exact ih h.2

theorem getProp_cons_self (k : String) (c : JValue)
    (kvs : List (String × JValue)) : getProp ((k, c) :: kvs) k = c := by
  simp [getProp, List.lookup]

theorem getProp_cons_ne (k a : String) (c : JValue)
    (kvs : List (String × JValue)) (h : k ≠ a) :
    getProp ((a, c) :: kvs) k = getProp kvs k := by
  have hne : (k == a) = false := beq_eq_false_iff_ne.mpr h
  simp [getProp, List.lookup, hne]

theorem unknownKeyReports_nil (suggest : SuggestFn) (typeName : String)
    (fieldNames : List String) (inputValue : JValue) (path : List PathKey)
    (keys : List String) (h : ∀ k ∈ keys, k ∈ fieldNames) :
    unknownKeyReports suggest keys typeName fieldNames inputValue path = [] := by
  rw [unknownKeyReports_filter]
  have hf : keys.filter (fun k => !(fieldNames.contains k)) = [] := by
    rw [List.filter_eq_nil_iff]
    intro k hk
    simp [h k hk]
  rw [hf]
  rfl

/-- On a `goodType`, a coercion with an empty trace never produces the
absent sentinel, and produces a nullish value only from a nullish input. -/
theorem coerceCollect_noErr_shape (suggest : SuggestFn) (v : JValue) :
    ∀ (t : GType) (path : List PathKey), goodType t →
      (coerceCollect suggest v t path).2 = [] →
      isUndef (coerceCollect suggest v t path).1 = false ∧
      (isNullish v = false → isNullish (coerceCollect suggest v t path).1 = false)
  | .nonNull ofType, path, hg, hz => by
      have hgt : goodType ofType := by simpa [goodType] using hg
      by_cases h : isNullish v
      · rw [coerceCollect.eq_def] at hz
        simp [h] at hz
      · have hres : coerceCollect suggest v (.nonNull ofType) path =
            coerceCollect suggest v ofType path := by
          rw [coerceCollect.eq_def]; simp [h]
        rw [hres] at hz ⊢
        exact coerceCollect_noErr_shape suggest v ofType path hgt hz
  | .list itemType, path, hg, hz => by
      by_cases h : isNullish v
      · have hres : coerceCollect suggest v (.list itemType) path = (.vNull, []) := by
          rw [coerceCollect.eq_def]; simp [h]
        rw [hres]
        exact ⟨rfl, fun hf => absurd hf (by simp [h])⟩
      · cases v with
        | vNull => simp [isNullish] at h
        | vUndefined => simp [isNullish] at h
        | vList xs =>
            constructor
            · rw [coerceCollect.eq_def]; simp [isNullish, isUndef]
            · intro _; rw [coerceCollect.eq_def]; simp [isNullish]
        | vBool b =>
            constructor
            · rw [coerceCollect.eq_def]; simp [isNullish, isUndef]
            · intro _; rw [coerceCollect.eq_def]; simp [isNullish]
        | vInt n =>
            constructor
            · rw [coerceCollect.eq_def]; simp [isNullish, isUndef]
            · intro _; rw [coerceCollect.eq_def]; simp [isNullish]
        | vString s =>
            constructor
            · rw [coerceCollect.eq_def]; simp [isNullish, isUndef]
            · intro _; rw [coerceCollect.eq_def]; simp [isNullish]
        | vObj kvs =>
            constructor
            · rw [coerceCollect.eq_def]; simp [isNullish, isUndef]
            · intro _; rw [coerceCollect.eq_def]; simp [isNullish]
  | .inputObject name fields, path, hg, hz => by
      by_cases h : isNullish v
      · have hres : coerceCollect suggest v (.inputObject name fields) path =
            (.vNull, []) := by
          rw [coerceCollect.eq_def]; simp [h]
        rw [hres]
        exact ⟨rfl, fun hf => absurd hf (by simp [h])⟩
      · cases v with
        | vNull => simp [isNullish] at h
        | vUndefined => simp [isNullish] at h
        | vObj kvs =>
            constructor
            · rw [coerceCollect.eq_def]; simp [isNullish, isUndef]
            · intro _; rw [coerceCollect.eq_def]; simp [isNullish]
        | vBool b =>
            rw [coerceCollect.eq_def] at hz; simp [isNullish] at hz
        | vInt n =>
            rw [coerceCollect.eq_def] at hz; simp [isNullish] at hz
        | vString s =>
            rw [coerceCollect.eq_def] at hz; simp [isNullish] at hz
        | vList xs =>
            rw [coerceCollect.eq_def] at hz; simp [isNullish] at hz
  | .scalar name parseValue, path, hg, hz => by
      have hp : ParseIdem parseValue := by simpa [goodType] using hg
      by_cases h : isNullish v
      · have hres : coerceCollect suggest v (.scalar name parseValue) path =
            (.vNull, []) := by
          rw [coerceCollect.eq_def]; simp [h]
        rw [hres]
        exact ⟨rfl, fun hf => absurd hf (by simp [h])⟩
      · rcases hpv : parseValue v with err | w
        · by_cases hge : err.isGraphQLErr
          · rw [coerceCollect.eq_def] at hz; simp [h, hpv, hge] at hz
          · rw [coerceCollect.eq_def] at hz; simp [h, hpv, hge] at hz
        · by_cases hw : isUndef w
          · rw [coerceCollect.eq_def] at hz; simp [h, hpv, hw] at hz
          · have hres : coerceCollect suggest v (.scalar name parseValue) path =
                (w, []) := by
              rw [coerceCollect.eq_def]; simp [h, hpv, hw]
            rw [hres]
            refine ⟨by simpa using hw, fun _ => ?_⟩
            have hpi := hp v w hpv (by simpa using hw)
            cases w with
            | vNull => exact absurd rfl hpi.2
            | vUndefined => simp [isUndef] at hw
            | vBool b => rfl
            | vInt n => rfl
            | vString s => rfl
            | vList xs => rfl
            | vObj kvs => rfl
  | .enum name values, path, hg, hz => by simp [goodType] at hg

mutual
/-- Re-coercing the value of an error-free coercion against the same
`goodType` (at any path) returns that value unchanged, with no reports. -/
theorem coerceCollect_idem (suggest : SuggestFn) (v : JValue) (t : GType)
    (path path2 : List PathKey) :
    goodType t → (coerceCollect suggest v t path).2 = [] →
    coerceCollect suggest ((coerceCollect suggest v t path).1) t path2 =
      ((coerceCollect suggest v t path).1, []) := by
  cases t with
  | nonNull ofType =>
      intro hg hz
      have hgt : goodType ofType := by simpa [goodType] using hg
      by_cases h : isNullish v
      · rw [coerceCollect.eq_def] at hz; simp [h] at hz
      · have hres : coerceCollect suggest v (.nonNull ofType) path =
            coerceCollect suggest v ofType path := by
          rw [coerceCollect.eq_def]; simp [h]
        rw [hres] at hz ⊢
        have hnn : isNullish (coerceCollect suggest v ofType path).1 = false :=
          (coerceCollect_noErr_shape suggest v ofType path hgt hz).2 (by simpa using h)
        rw [coerceCollect.eq_def]
        simp only [hnn, Bool.false_eq_true, if_false]
        exact coerceCollect_idem suggest v ofType path path2 hgt hz
  | list itemType =>
      intro hg hz
      have hgt : goodType itemType := by simpa [goodType] using hg
      by_cases h : isNullish v
      · have hres : coerceCollect suggest v (.list itemType) path = (.vNull, []) := by
          rw [coerceCollect.eq_def]; simp [h]
        rw [hres]
        show coerceCollect suggest .vNull (.list itemType) path2 = (.vNull, [])
        rw [coerceCollect.eq_def]; simp [isNullish]
      · cases v with
        | vNull => simp [isNullish] at h
        | vUndefined => simp [isNullish] at h
        | vList xs =>
            have hres : coerceCollect suggest (.vList xs) (.list itemType) path =
                (.vList (coerceCollectList suggest itemType xs 0 path).1,
                 (coerceCollectList suggest itemType xs 0 path).2) := by
              rw [coerceCollect.eq_def]; simp [isNullish]
            have hz2 : (coerceCollectList suggest itemType xs 0 path).2 = [] := by
              rw [hres] at hz; exact hz
            rw [hres]
            show coerceCollect suggest
                (.vList (coerceCollectList suggest itemType xs 0 path).1)
                (.list itemType) path2 =
              (.vList (coerceCollectList suggest itemType xs 0 path).1, [])
            rw [coerceCollect.eq_def]
            simp only [isNullish, Bool.false_eq_true, if_false]
            rw [coerceCollectList_idem suggest itemType xs 0 path 0 path2 hgt hz2]
        | vBool b =>
            have hres : coerceCollect suggest (.vBool b) (.list itemType) path =
                (.vList [(coerceCollect suggest (.vBool b) itemType path).1],
                 (coerceCollect suggest (.vBool b) itemType path).2) := by
              rw [coerceCollect.eq_def]; simp [isNullish]
            have hz2 : (coerceCollect suggest (.vBool b) itemType path).2 = [] := by
              rw [hres] at hz; exact hz
            rw [hres]
            show coerceCollect suggest
                (.vList [(coerceCollect suggest (.vBool b) itemType path).1])
                (.list itemType) path2 =
              (.vList [(coerceCollect suggest (.vBool b) itemType path).1], [])
            rw [coerceCollect.eq_def]
            simp only [isNullish, Bool.false_eq_true, if_false]
            have hlist : coerceCollectList suggest itemType
                [(coerceCollect suggest (.vBool b) itemType path).1] 0 path2 =
                ([(coerceCollect suggest (.vBool b) itemType path).1], []) := by
              rw [coerceCollectList.eq_2]
              rw [coerceCollect_idem suggest (.vBool b) itemType path
                (addPath path2 (.idx 0)) hgt hz2]
              simp [coerceCollectList]
            rw [hlist]
        | vInt n =>
            have hres : coerceCollect suggest (.vInt n) (.list itemType) path =
                (.vList [(coerceCollect suggest (.vInt n) itemType path).1],
                 (coerceCollect suggest (.vInt n) itemType path).2) := by
              rw [coerceCollect.eq_def]; simp [isNullish]
            have hz2 : (coerceCollect suggest (.vInt n) itemType path).2 = [] := by
              rw [hres] at hz; exact hz
            rw [hres]
            show coerceCollect suggest
                (.vList [(coerceCollect suggest (.vInt n) itemType path).1])
                (.list itemType) path2 =
              (.vList [(coerceCollect suggest (.vInt n) itemType path).1], [])
            rw [coerceCollect.eq_def]
            simp only [isNullish, Bool.false_eq_true, if_false]
            have hlist : coerceCollectList suggest itemType
                [(coerceCollect suggest (.vInt n) itemType path).1] 0 path2 =
                ([(coerceCollect suggest (.vInt n) itemType path).1], []) := by
              rw [coerceCollectList.eq_2]
              rw [coerceCollect_idem suggest (.vInt n) itemType path
                (addPath path2 (.idx 0)) hgt hz2]
              simp [coerceCollectList]
            rw [hlist]
        | vString s =>
            have hres : coerceCollect suggest (.vString s) (.list itemType) path =
                (.vList [(coerceCollect suggest (.vString s) itemType path).1],
                 (coerceCollect suggest (.vString s) itemType path).2) := by
              rw [coerceCollect.eq_def]; simp [isNullish]
            have hz2 : (coerceCollect suggest (.vString s) itemType path).2 = [] := by
              rw [hres] at hz; exact hz
            rw [hres]
            show coerceCollect suggest
                (.vList [(coerceCollect suggest (.vString s) itemType path).1])
                (.list itemType) path2 =
              (.vList [(coerceCollect suggest (.vString s) itemType path).1], [])
            rw [coerceCollect.eq_def]
            simp only [isNullish, Bool.false_eq_true, if_false]
            have hlist : coerceCollectList suggest itemType
                [(coerceCollect suggest (.vString s) itemType path).1] 0 path2 =
                ([(coerceCollect suggest (.vString s) itemType path).1], []) := by
              rw [coerceCollectList.eq_2]
              rw [coerceCollect_idem suggest (.vString s) itemType path
                (addPath path2 (.idx 0)) hgt hz2]
              simp [coerceCollectList]
            rw [hlist]
        | vObj kvs =>
            have hres : coerceCollect suggest (.vObj kvs) (.list itemType) path =
                (.vList [(coerceCollect suggest (.vObj kvs) itemType path).1],
                 (coerceCollect suggest (.vObj kvs) itemType path).2) := by
              rw [coerceCollect.eq_def]; simp [isNullish]
            have hz2 : (coerceCollect suggest (.vObj kvs) itemType path).2 = [] := by
              rw [hres] at hz; exact hz
            rw [hres]
            show coerceCollect suggest
                (.vList [(coerceCollect suggest (.vObj kvs) itemType path).1])
                (.list itemType) path2 =
              (.vList [(coerceCollect suggest (.vObj kvs) itemType path).1], [])
            rw [coerceCollect.eq_def]
            simp only [isNullish, Bool.false_eq_true, if_false]
            have hlist : coerceCollectList suggest itemType
                [(coerceCollect suggest (.vObj kvs) itemType path).1] 0 path2 =
                ([(coerceCollect suggest (.vObj kvs) itemType path).1], []) := by
              rw [coerceCollectList.eq_2]
              rw [coerceCollect_idem suggest (.vObj kvs) itemType path
                (addPath path2 (.idx 0)) hgt hz2]
              simp [coerceCollectList]
            rw [hlist]
  | inputObject name fields =>
      intro hg hz
      obtain ⟨hnd, hgf⟩ : (fields.map GField.name).Nodup ∧ goodFields fields := by
        simpa [goodType] using hg
      by_cases h : isNullish v
      · have hres : coerceCollect suggest v (.inputObject name fields) path =
            (.vNull, []) := by
          rw [coerceCollect.eq_def]; simp [h]
        rw [hres]
        show coerceCollect suggest .vNull (.inputObject name fields) path2 =
          (.vNull, [])
        rw [coerceCollect.eq_def]; simp [isNullish]
      · cases v with
        | vNull => simp [isNullish] at h
        | vUndefined => simp [isNullish] at h
        | vObj kvs =>
            have hres : coerceCollect suggest (.vObj kvs) (.inputObject name fields) path =
                (.vObj (coerceCollectFields suggest kvs fields path).1,
                 (coerceCollectFields suggest kvs fields path).2 ++
                   unknownKeyReports suggest (kvs.map Prod.fst) name
                     (fields.map GField.name) (.vObj kvs) path) := by
              rw [coerceCollect.eq_def]; simp [isNullish]
            have hz2 : (coerceCollectFields suggest kvs fields path).2 ++
                unknownKeyReports suggest (kvs.map Prod.fst) name
                  (fields.map GField.name) (.vObj kvs) path = [] := by
              rw [hres] at hz; exact hz
            obtain ⟨hF, hU⟩ := List.append_eq_nil.mp hz2
            rw [hres]
            show coerceCollect suggest
                (.vObj (coerceCollectFields suggest kvs fields path).1)
                (.inputObject name fields) path2 =
              (.vObj (coerceCollectFields suggest kvs fields path).1, [])
            rw [coerceCollect.eq_def]
            simp only [isNullish, Bool.false_eq_true, if_false]
            rw [coerceCollectFields_idem suggest kvs fields path
              (coerceCollectFields suggest kvs fields path).1 path2 hnd hgf hF
              (fun g _ => rfl)]
            rw [unknownKeyReports_nil suggest name (fields.map GField.name)
              (.vObj (coerceCollectFields suggest kvs fields path).1) path2
              ((coerceCollectFields suggest kvs fields path).1.map Prod.fst)
              (fun k hk => by
                obtain ⟨p, hp, hpe⟩ := List.mem_map.mp hk
                exact hpe ▸ coerceCollectFields_keys suggest kvs path fields p hp)]
            rfl
        | vBool b =>
            rw [coerceCollect.eq_def] at hz; simp [isNullish] at hz
        | vInt n =>
            rw [coerceCollect.eq_def] at hz; simp [isNullish] at hz
        | vString s =>
            rw [coerceCollect.eq_def] at hz; simp [isNullish] at hz
        | vList xs =>
            rw [coerceCollect.eq_def] at hz; simp [isNullish] at hz
  | scalar name parseValue =>
      intro hg hz
      have hp : ParseIdem parseValue := by simpa [goodType] using hg
      by_cases h : isNullish v
      · have hres : coerceCollect suggest v (.scalar name parseValue) path =
            (.vNull, []) := by
          rw [coerceCollect.eq_def]; simp [h]
        rw [hres]
        show coerceCollect suggest .vNull (.scalar name parseValue) path2 =
          (.vNull, [])
        rw [coerceCollect.eq_def]; simp [isNullish]
      · rcases hpv : parseValue v with err | w
        · by_cases hge : err.isGraphQLErr
          · rw [coerceCollect.eq_def] at hz; simp [h, hpv, hge] at hz
          · rw [coerceCollect.eq_def] at hz; simp [h, hpv, hge] at hz
        · by_cases hw : isUndef w
          · rw [coerceCollect.eq_def] at hz; simp [h, hpv, hw] at hz
          · have hres : coerceCollect suggest v (.scalar name parseValue) path =
                (w, []) := by
              rw [coerceCollect.eq_def]; simp [h, hpv, hw]
            rw [hres]
            show coerceCollect suggest w (.scalar name parseValue) path2 = (w, [])
            have hpi := hp v w hpv (by simpa using hw)
            have hwn : isNullish w = false := by
              cases w with
              | vNull => exact absurd rfl hpi.2
              | vUndefined => simp [isUndef] at hw
              | vBool b => rfl
              | vInt n => rfl
              | vString s => rfl
              | vList xs => rfl
              | vObj kvs => rfl
            rw [coerceCollect.eq_def]
            simp [hwn, hpi.1, hw]
  | enum name values => intro hg hz; simp [goodType] at hg
termination_by (2 * sizeOf t, 0)
decreasing_by all_goals (simp_wf; omega)

theorem coerceCollectList_idem (suggest : SuggestFn) (itemType : GType)
    (xs : List JValue) (index : Nat) (path : List PathKey)
    (index2 : Nat) (path2 : List PathKey) :
    goodType itemType → (coerceCollectList suggest itemType xs index path).2 = [] →
    coerceCollectList suggest itemType
        (coerceCollectList suggest itemType xs index path).1 index2 path2 =
      ((coerceCollectList suggest itemType xs index path).1, []) := by
  cases xs with
  | nil =>
      intro hg hz
      have hres : coerceCollectList suggest itemType [] index path = ([], []) := by
        rw [coerceCollectList.eq_1]
      rw [hres]
      show coerceCollectList suggest itemType [] index2 path2 = ([], [])
      rw [coerceCollectList.eq_1]
  | cons x rest =>
      intro hg hz
      have hres : coerceCollectList suggest itemType (x :: rest) index path =
          ((coerceCollect suggest x itemType (addPath path (.idx index))).1 ::
             (coerceCollectList suggest itemType rest (index + 1) path).1,
           (coerceCollect suggest x itemType (addPath path (.idx index))).2 ++
             (coerceCollectList suggest itemType rest (index + 1) path).2) := by
        rw [coerceCollectList.eq_2]
      have hz2 : (coerceCollect suggest x itemType (addPath path (.idx index))).2 ++
          (coerceCollectList suggest itemType rest (index + 1) path).2 = [] := by
        rw [hres] at hz; exact hz
      obtain ⟨hhd, htl⟩ := List.append_eq_nil.mp hz2
      rw [hres]
      show coerceCollectList suggest itemType
          ((coerceCollect suggest x itemType (addPath path (.idx index))).1 ::
            (coerceCollectList suggest itemType rest (index + 1) path).1)
          index2 path2 =
        ((coerceCollect suggest x itemType (addPath path (.idx index))).1 ::
          (coerceCollectList suggest itemType rest (index + 1) path).1, [])
      rw [coerceCollectList.eq_2]
      rw [coerceCollect_idem suggest x itemType (addPath path (.idx index))
        (addPath path2 (.idx index2)) hg hhd]
      rw [coerceCollectList_idem suggest itemType rest (index + 1) path
        (index2 + 1) path2 hg htl]
      rfl
termination_by (2 * sizeOf itemType + 1, sizeOf xs)
decreasing_by all_goals (simp_wf; omega)

theorem coerceCollectFields_idem (suggest : SuggestFn)
    (kvs : List (String × JValue)) (fields : List GField) (path : List PathKey)
    (kvs2 : List (String × JValue)) (path2 : List PathKey) :
    (fields.map GField.name).Nodup → goodFields fields →
    (coerceCollectFields suggest kvs fields path).2 = [] →
    (∀ g ∈ fields, getProp kvs2 g.name =
        getProp (coerceCollectFields suggest kvs fields path).1 g.name) →
    coerceCollectFields suggest kvs2 fields path2 =
      ((coerceCollectFields suggest kvs fields path).1, []) := by
  cases fields with
  | nil =>
      intro hnd hg hz hsame
      have hres : coerceCollectFields suggest kvs [] path = ([], []) := by
        rw [coerceCollectFields.eq_1]
      rw [hres]
      show coerceCollectFields suggest kvs2 [] path2 = ([], [])
      rw [coerceCollectFields.eq_1]
  | cons f rest =>
      intro hnd hg hz hsame
      rcases f with ⟨fname, ftype, fdefault⟩
      obtain ⟨hd0, hgt, hgr⟩ : fdefault = none ∧ goodType ftype ∧ goodFields rest := by
        simpa [goodFields] using hg
      subst hd0
      have hndc : (fname :: rest.map GField.name).Nodup := by
        simpa [GField.name] using hnd
      obtain ⟨hn1, hnd1⟩ := List.nodup_cons.mp hndc
      by_cases habs : isUndef (getProp kvs fname)
      · by_cases hreq : ftype.isNonNull
        · have hcontra : (coerceCollectFields suggest kvs
              (⟨fname, ftype, none⟩ :: rest) path).2 =
              ⟨pathToArray path, .vObj kvs,
                GraphQLError ("Field \"" ++ fname ++ "\" of required type \"" ++
                  typeToString ftype ++ "\" was not provided.")⟩ ::
                (coerceCollectFields suggest kvs rest path).2 := by
            rw [coerceCollectFields.eq_def]; simp [habs, hreq]
          rw [hcontra] at hz
          simp at hz
        · have hres : coerceCollectFields suggest kvs
              (⟨fname, ftype, none⟩ :: rest) path =
              coerceCollectFields suggest kvs rest path := by
            rw [coerceCollectFields.eq_def]; simp [habs, hreq]
          rw [hres] at hz hsame ⊢
          have hout : fname ∉ (coerceCollectFields suggest kvs rest path).1.map Prod.fst := by
            intro hmem
            obtain ⟨p, hp, hpe⟩ := List.mem_map.mp hmem
            exact hn1 (hpe ▸ coerceCollectFields_keys suggest kvs path rest p hp)
          have hk2 : getProp kvs2 fname = .vUndefined := by
            have hs := hsame ⟨fname, ftype, none⟩ (List.mem_cons_self _ _)
            rw [show GField.name ⟨fname, ftype, none⟩ = fname from rfl] at hs
            rw [hs]
            exact getProp_not_mem fname _ hout
          rw [coerceCollectFields.eq_def]
          simp only [hk2, isUndef, if_true]
          simp only [hreq, Bool.false_eq_true, if_false]
          exact coerceCollectFields_idem suggest kvs rest path kvs2 path2 hnd1 hgr hz
            (fun g hgm => hsame g (List.mem_cons_of_mem _ hgm))
      · have hres : coerceCollectFields suggest kvs
            (⟨fname, ftype, none⟩ :: rest) path =
            ((fname, (coerceCollect suggest (getProp kvs fname) ftype
                (addPath path (.str fname))).1) ::
               (coerceCollectFields suggest kvs rest path).1,
             (coerceCollect suggest (getProp kvs fname) ftype
                (addPath path (.str fname))).2 ++
               (coerceCollectFields suggest kvs rest path).2) := by
          rw [coerceCollectFields.eq_def]; simp [habs]
        rw [hres] at hz hsame ⊢
        obtain ⟨hhd, htl⟩ := List.append_eq_nil.mp hz
        have hk2 : getProp kvs2 fname = (coerceCollect suggest (getProp kvs fname)
            ftype (addPath path (.str fname))).1 := by
          have hs := hsame ⟨fname, ftype, none⟩ (List.mem_cons_self _ _)
          rw [show GField.name ⟨fname, ftype, none⟩ = fname from rfl] at hs
          rw [hs]
          exact getProp_cons_self _ _ _
        have hu1 : isUndef (coerceCollect suggest (getProp kvs fname) ftype
            (addPath path (.str fname))).1 = false :=
          (coerceCollect_noErr_shape suggest (getProp kvs fname) ftype
            (addPath path (.str fname)) hgt hhd).1
        rw [coerceCollectFields.eq_def]
        simp only [hk2, hu1, Bool.false_eq_true, if_false]
        rw [coerceCollect_idem suggest (getProp kvs fname) ftype
          (addPath path (.str fname)) (addPath path2 (.str fname)) hgt hhd]
        rw [coerceCollectFields_idem suggest kvs rest path kvs2 path2 hnd1 hgr htl
          (fun g hgm => by
            have h1 := hsame g (List.mem_cons_of_mem _ hgm)
            have hne : g.name ≠ fname := fun he =>
              hn1 (he ▸ List.mem_map_of_mem GField.name hgm)
            rw [h1, getProp_cons_ne _ _ _ _ hne])]
        rfl
termination_by (2 * sizeOf fields + 1, 0)
decreasing_by all_goals (simp_wf; omega)
end

/-- C9 as stated is false: an enum type has no scalar leaves, so its
hypothesis holds vacuously, yet coercing `"RED"` against
`Enum E (RED ↦ 0)` succeeds with payload `0`, and re-coercing that output
reports one error and yields absent instead of the same output. -/
theorem claim_c9_counterexample :
    coerceInputValueImpl suggestNone collectOnError (JValue.vString "RED")
        (.enum "E" [("RED", JValue.vInt 0)]) [] [] = .ok (JValue.vInt 0, []) ∧
    coerceInputValueImpl suggestNone collectOnError (JValue.vInt 0)
        (.enum "E" [("RED", JValue.vInt 0)]) [] [] =
      .ok (.vUndefined,
        [⟨pathToArray [], JValue.vInt 0,
          GraphQLError ("Expected type \"" ++ "E" ++ "\"." ++
            didYouMean (some "the enum value")
              (suggestNone (jsString (JValue.vInt 0))
                (List.map Prod.fst [("RED", JValue.vInt 0)])))⟩]) ∧
    JValue.vUndefined ≠ JValue.vInt 0 := by
  refine ⟨?_, ?_, fun h => JValue.noConfusion h⟩
  · rw [coerceInputValueImpl.eq_def]
    simp [isNullish, enumLookup, List.lookup]
  · rw [coerceInputValueImpl.eq_def]
    simp [isNullish, enumLookup, collectOnError]

/-- C9 (amended to types with no enum leaves, unique field names, no field
defaults, and scalar parses that are idempotent on successful non-absent
results and never parse to null): re-coercing the output of an error-free
coercion yields the same output with zero errors. -/
theorem claim_c9_idem (suggest : SuggestFn) (v w : JValue) (t : GType)
    (path path2 : List PathKey) (hg : goodType t)
    (hz : coerceInputValueImpl suggest collectOnError v t path [] = .ok (w, [])) :
    coerceInputValueImpl suggest collectOnError w t path2 [] = .ok (w, []) := by
  rw [coerce_collect_run] at hz
  have hpair : ((coerceCollect suggest v t path).1,
      [] ++ (coerceCollect suggest v t path).2) = (w, ([] : ErrSt)) := by
    injection hz
  have h1 : (coerceCollect suggest v t path).1 = w := congrArg Prod.fst hpair
  have h2 : (coerceCollect suggest v t path).2 = [] := by
    simpa using congrArg Prod.snd hpair
  rw [coerce_collect_run, ← h1,
    coerceCollect_idem suggest v t path path2 hg h2]
  simp

/-- A sample scalar parse for the idempotence witness: stringify. -/
def strParse : JValue → Except JSErr JValue := fun v =>
  .ok (.vString (jsString v))

theorem claim_c9_idem_witness :
    goodType (.scalar "S" strParse) ∧
    coerceInputValueImpl suggestNone collectOnError (JValue.vInt 3)
        (.scalar "S" strParse) [] [] =
      .ok (.vString (jsString (JValue.vInt 3)), []) ∧
    coerceInputValueImpl suggestNone collectOnError
        (.vString (jsString (JValue.vInt 3))) (.scalar "S" strParse) [] [] =
      .ok (.vString (jsString (JValue.vInt 3)), []) := by
  have hg : goodType (.scalar "S" strParse) := by
    simp only [goodType]
    intro x y h hu
    have hy : y = .vString (jsString x) := by
      simpa [strParse] using h.symm
    subst hy
    refine ⟨?_, fun he => JValue.noConfusion he⟩
    simp [strParse, jsString]
  have hz : coerceInputValueImpl suggestNone collectOnError (JValue.vInt 3)
      (.scalar "S" strParse) [] [] =
      .ok (.vString (jsString (JValue.vInt 3)), []) := by
    rw [coerceInputValueImpl.eq_def]
    simp [isNullish, strParse, isUndef]
  exact ⟨hg, hz,
    claim_c9_idem suggestNone (JValue.vInt 3) (.vString (jsString (JValue.vInt 3)))
      (.scalar "S" strParse) [] [] hg hz⟩

end CoerceInput
